import Mathlib

/-!
ScrapeStrike — verification of the summarization core.

Shallow embedding of the algorithmic core of the repository
(`src/main.py` and `reddit_gpt_summarizer/utils/utils.py`):

* the tree flattener `get_body_contents`,
* the token-aware chunker `concatenate_bodies`,
* the completion wrapper `complete_chunk`,
* the multi-pass summarization driver `generate_summary`,
* the metadata extractor `get_metadata_from_reddit_json`,
* the output-writer filename sanitizer `generate_filename`.

The token counter (`get_token_length`, a tiktoken call) is an external
opaque function; the spec only guarantees determinism, so every
definition that consumes it is parameterized by a `tokLen : String → Nat`
argument.  The completion provider is likewise passed in as an oracle
`provider : String → Int → String` (prompt and max-token budget in,
completion text out).  Python exceptions are modelled with `Except`.
-/

namespace ScrapeStrike

/-- Constant `MAX_CHUNK_SIZE = 2500` from `src/main.py`. -/
def MAX_CHUNK_SIZE : Nat := 2500

/-- Constant `MAX_TOKENS = 4000` from `src/main.py`, the total token
ceiling for a completion call. -/
def MAX_TOKENS : Int := 4000

/-- Constant `MAX_NUMBER_OF_SUMMARIES = 1` from `src/main.py`. -/
def MAX_NUMBER_OF_SUMMARIES : Nat := 1

/-- The constant instruction text prepended to every prompt (`INSTRUCTION_TEXT`). -/
def INSTRUCTION_TEXT : String :=
  "Edit the article to include relevant information from the comments, revise and enhance the content, and make it engaging and easy to understand. Avoid including code or commands, and present facts objectively and clearly."

/-- Collapse every run of consecutive newline characters to a single
newline, on the character list: the effect of `re.sub(r"\n+", "\n", s)`. -/
def collapseNL : List Char → List Char
  | [] => []
  | [c] => [c]
  | c :: c2 :: rest =>
      if c = '\n' ∧ c2 = '\n' then collapseNL (c2 :: rest)
      else c :: collapseNL (c2 :: rest)

/-- Effect of `re.sub(r"\n+", "\n", s)` lifted to `String`. -/
def normalizeNewlines (s : String) : String :=
  String.mk (collapseNL s.data)

/-- Loop body of `concatenate_bodies`: walks the `(path, body)` tuples,
accumulating nonempty bodies (newline-normalized, newline-terminated)
into `result`, closing `result` into `results` as soon as its token
count exceeds `MAX_CHUNK_SIZE`, and flushing a nonempty trailing
accumulator at the end. -/
def concatBodiesAux (tokLen : String → Nat) :
    List (String × String) → List String → String → List String
  | [], results, result =>
      if result ≠ "" then results ++ [result] else results
  | bt :: rest, results, result =>
      if bt.2 ≠ "" then
        if tokLen (result ++ normalizeNewlines bt.2 ++ "\n") > MAX_CHUNK_SIZE then
          concatBodiesAux tokLen rest
            (results ++ [result ++ normalizeNewlines bt.2 ++ "\n"]) ""
        else
          concatBodiesAux tokLen rest results (result ++ normalizeNewlines bt.2 ++ "\n")
      else
        concatBodiesAux tokLen rest results result

/-- Function `concatenate_bodies` from `src/main.py`: groups the flattened
`(path, body)` records into newline-delimited chunk strings, bounded by
`MAX_CHUNK_SIZE` tokens as measured by `tokLen`. -/
def concatenate_bodies (tokLen : String → Nat) (contents : List (String × String)) :
    List String :=
  concatBodiesAux tokLen contents [] ""

/-! ## JSON payloads and the tree flattener -/

mutual

/-- A JSON-decoded value (`ThreadPayload` node): string, number, boolean,
null, object (key-value members in insertion order) or array. -/
inductive JsonVal : Type where
  | str : String → JsonVal
  | num : Int → JsonVal
  | bool : Bool → JsonVal
  | null : JsonVal
  | obj : JsonMembers → JsonVal
  | arr : JsonList → JsonVal

/-- The members of a JSON object, in insertion order. -/
inductive JsonMembers : Type where
  | nil : JsonMembers
  | cons : String → JsonVal → JsonMembers → JsonMembers

/-- The elements of a JSON array, in index order. -/
inductive JsonList : Type where
  | nil : JsonList
  | cons : JsonVal → JsonList → JsonList

end

/-- Dictionary lookup: the value of the first member named `k`, the
effect of `data[k]` / `k in data` on a Python dict. -/
def memLookup : JsonMembers → String → Option JsonVal
  | .nil, _ => none
  | .cons k v rest, key => if k = key then some v else memLookup rest key

/-- Length of a JSON array. -/
def jlistLength : JsonList → Nat
  | .nil => 0
  | .cons _ rest => jlistLength rest + 1

/-- Element `i` of a JSON array, the effect of `data[i]` on a Python list. -/
def jlistGet : JsonList → Nat → Option JsonVal
  | .nil, _ => none
  | .cons v _, 0 => some v
  | .cons _ rest, i + 1 => jlistGet rest i

mutual

/-- Generator `get_body_contents` from `src/main.py`: walks the payload
and returns one `(path_str, body_value)` record per dict node carrying a
`"body"` key — the record is emitted before the members of the node are
visited (pre-order); members are visited in insertion order, array
elements in index order with the stringified index appended to the path. -/
def get_body_contents : JsonVal → List String → List (String × JsonVal)
  | .obj ms, path =>
      (match memLookup ms "body" with
       | some v => [(String.intercalate "/" path, v)]
       | none => []) ++ gbcMembers ms path
  | .arr xs, path => gbcArr xs 0 path
  | _, _ => []

/-- The `for key, value in data.items()` loop of `get_body_contents`. -/
def gbcMembers : JsonMembers → List String → List (String × JsonVal)
  | .nil, _ => []
  | .cons k v rest, path => get_body_contents v (path ++ [k]) ++ gbcMembers rest path

/-- The `for index, item in enumerate(data)` loop of `get_body_contents`. -/
def gbcArr : JsonList → Nat → List String → List (String × JsonVal)
  | .nil, _, _ => []
  | .cons v rest, i, path =>
      get_body_contents v (path ++ [toString i]) ++ gbcArr rest (i + 1) path

end

mutual

/-- The number of body-bearing nodes of a payload: dict nodes with a
`"body"` key.  Defined independently of the flattener, as a
specification of "one record per body-bearing node". -/
def countBodyNodes : JsonVal → Nat
  | .obj ms => (if (memLookup ms "body").isSome then 1 else 0) + countBodyMembers ms
  | .arr xs => countBodyArr xs
  | _ => 0

/-- Body-bearing nodes among the member values of an object. -/
def countBodyMembers : JsonMembers → Nat
  | .nil => 0
  | .cons _ v rest => countBodyNodes v + countBodyMembers rest

/-- Body-bearing nodes among the elements of an array. -/
def countBodyArr : JsonList → Nat
  | .nil => 0
  | .cons v rest => countBodyNodes v + countBodyArr rest

end

/-! ## Metadata extractor -/

/-- The Python exceptions `get_metadata_from_reddit_json` can raise:
`KeyError` / `IndexError` / `TypeError` while navigating the thread-root
shape, and the explicit `ValueError("... not found in child data")` for
an absent `title` / `selftext` field (the `MissingFieldError` of the
spec taxonomy). -/
inductive MetaErr : Type where
  | keyError : MetaErr
  | indexError : MetaErr
  | typeError : MetaErr
  | missingField : String → MetaErr
deriving DecidableEq

/-- Python `v[i]` for an integer index `i`. -/
def pySubscriptIdx (v : JsonVal) (i : Nat) : Except MetaErr JsonVal :=
  match v with
  | .arr xs =>
      match jlistGet xs i with
      | some x => .ok x
      | none => .error .indexError
  | .str s =>
      match s.data.get? i with
      | some c => .ok (.str (String.mk [c]))
      | none => .error .indexError
  | .obj _ => .error .keyError
  | _ => .error .typeError

/-- Python `v[k]` for a string key `k`. -/
def pySubscriptKey (v : JsonVal) (k : String) : Except MetaErr JsonVal :=
  match v with
  | .obj ms =>
      match memLookup ms k with
      | some x => .ok x
      | none => .error .keyError
  | _ => .error .typeError

/-- Whether a list element equals the Python string `key` (Python `==`
between a string and an arbitrary JSON value). -/
def eqStrKey (v : JsonVal) (key : String) : Bool :=
  match v with
  | .str s => s = key
  | _ => false

/-- Membership of `needle` as a contiguous substring of `hay`. -/
def strContains (needle : List Char) : List Char → Bool
  | [] => decide (needle = [])
  | c :: rest => needle.isPrefixOf (c :: rest) || strContains needle rest

/-- Whether an array contains an element equal to `key`. -/
def jlistHasStr : JsonList → String → Bool
  | .nil, _ => false
  | .cons v rest, key => eqStrKey v key || jlistHasStr rest key

/-- Python `key in v`: key membership for a dict, element membership for
a list, substring test for a string, `TypeError` otherwise. -/
def pyContains (v : JsonVal) (key : String) : Except MetaErr Bool :=
  match v with
  | .obj ms => .ok (memLookup ms key).isSome
  | .arr xs => .ok (jlistHasStr xs key)
  | .str s => .ok (strContains key.data s.data)
  | _ => .error .typeError

/-- Navigation `data[0]["data"]["children"][0]["data"]` performed by
`get_metadata_from_reddit_json`. -/
def navChild (data : JsonVal) : Except MetaErr JsonVal := do
  let a ← pySubscriptIdx data 0
  let b ← pySubscriptKey a "data"
  let c ← pySubscriptKey b "children"
  let d ← pySubscriptIdx c 0
  pySubscriptKey d "data"

/-- Function `get_metadata_from_reddit_json` from `src/main.py`:
navigates to the data dict of the first child, raises `ValueError` if
`title` or `selftext` is absent, and returns the two field values. -/
def get_metadata_from_reddit_json (data : JsonVal) :
    Except MetaErr (JsonVal × JsonVal) := do
  let child ← navChild data
  let hasTitle ← pyContains child "title"
  if hasTitle = false then
    .error (.missingField "Title not found in child data")
  else do
    let hasSelftext ← pyContains child "selftext"
    if hasSelftext = false then
      .error (.missingField "Selftext not found in child data")
    else do
      let t ← pySubscriptKey child "title"
      let s ← pySubscriptKey child "selftext"
      .ok (t, s)

/-! ## Completion wrapper and summarization driver -/

/-- Error taxonomy the spec assigns to `complete_chunk`
(`PromptTooLargeError`).  The source never raises it: the error case
exists in the type so that the claimed behavior is statable against the
actual behavior of the code. -/
inductive PromptErr : Type where
  | promptTooLarge : PromptErr
deriving DecidableEq

/-- The completion text `complete_chunk` obtains: the provider invoked
with the prompt and a `max_tokens` budget of
`MAX_TOKENS - get_token_length(prompt)` (possibly negative, passed
through unchecked). -/
def completeChunkVal (tokLen : String → Nat) (provider : String → Int → String)
    (prompt : String) : String :=
  provider prompt (MAX_TOKENS - (tokLen prompt : Int))

/-- Function `complete_chunk` from `src/main.py`: computes the remaining
budget and invokes the provider; there is no guard on the budget, so the
function never fails with `PromptErr.promptTooLarge`. -/
def complete_chunk (tokLen : String → Nat) (provider : String → Int → String)
    (prompt : String) : Except PromptErr String :=
  .ok (completeChunkVal tokLen provider prompt)

/-- One executed pass of the summarization loop: the rolling prefix the
pass started from, the full prompt sent to the provider, and the
completion received. -/
structure SummaryPass : Type where
  preUsed : String
  prompt : String
  summary : String
deriving DecidableEq

/-- The result of a successful `generate_summary` call: the transcript
`output`, the ordered passes, and the caller-visible `groups` list after
the in-place `groups.insert(0, groups[0])` mutation. -/
structure SummaryResult : Type where
  output : String
  passes : List SummaryPass
  groupsAfter : List String
deriving DecidableEq

/-- The Python exceptions `generate_summary` can raise: `IndexError`
from `groups[0]` on an empty list. -/
inductive SummErr : Type where
  | indexError : SummErr
deriving DecidableEq

/-- The prompt built for one pass: rolling prefix, instruction text, the
chunk bracketed by `COMMENTS BEGIN` / `COMMENTS END`, and the
`Title:` continuation marker. -/
def mkPrompt (pre group : String) : String :=
  pre ++ "\n\n" ++ INSTRUCTION_TEXT ++ "\n\nCOMMENTS BEGIN\n" ++ group
    ++ "\nCOMMENTS END\n\nTitle:"

/-- The rolling prefix carried into the next pass:
`f"{title}\n\n{summary}\nEND"`. -/
def nextPre (title summary : String) : String :=
  title ++ "\n\n" ++ summary ++ "\nEND"

/-- The transcript block appended for pass `i`. -/
def passBlock (i : Nat) (prompt summary : String) : String :=
  "\n\n============\nSUMMARY COUNT: " ++ toString i ++ "\n============\n"
    ++ "PROMPT: " ++ prompt ++ "\n\n" ++ summary
    ++ "\n======================================\n\n"

/-- The `for i, group in enumerate(groups[:max_number_of_summaries])`
loop of `generate_summary`, threading the rolling prefix, the transcript
accumulator, the pass index and the recorded passes. -/
def genLoop (tokLen : String → Nat) (provider : String → Int → String)
    (title : String) :
    List String → String → String → Nat → List SummaryPass →
      String × List SummaryPass
  | [], _, output, _, passes => (output, passes)
  | g :: rest, pre, output, i, passes =>
      let prompt := mkPrompt pre g
      let summary := completeChunkVal tokLen provider prompt
      genLoop tokLen provider title rest (nextPre title summary)
        (output ++ passBlock i prompt summary) (i + 1)
        (passes ++ [⟨pre, prompt, summary⟩])

/-- Function `generate_summary` from `src/main.py`, with the pass cap
`maxN` (the module constant `MAX_NUMBER_OF_SUMMARIES`, a configuration
value in the spec) as a parameter: initializes the prefix from title and
selftext, starts the transcript header, duplicates the first chunk at
index 0 (`groups.insert(0, groups[0])` — an `IndexError` on an empty
list), and runs the pass loop over the first `maxN` chunks. -/
def generate_summary (tokLen : String → Nat) (provider : String → Int → String)
    (maxN : Nat) (title selftext : String) (groups : List String) :
    Except SummErr SummaryResult :=
  match groups with
  | [] => .error .indexError
  | g0 :: rest =>
      let groups2 := g0 :: g0 :: rest
      let pre0 := "Title: " ++ title ++ "\n" ++ selftext
      let output0 := "START\n\n" ++ INSTRUCTION_TEXT ++ "\n\n"
      let r := genLoop tokLen provider title (groups2.take maxN) pre0 output0 0 []
      .ok ⟨r.1, r.2, groups2⟩

/-- The sequence of passes the loop executes from a starting prefix:
each pass records the prefix it started from, the prompt built from it,
and the completion; the next pass starts from `nextPre`. -/
def tracePasses (tokLen : String → Nat) (provider : String → Int → String)
    (title : String) : List String → String → List SummaryPass
  | [], _ => []
  | g :: rest, pre =>
      ⟨pre, mkPrompt pre g, completeChunkVal tokLen provider (mkPrompt pre g)⟩ ::
        tracePasses tokLen provider title rest
          (nextPre title (completeChunkVal tokLen provider (mkPrompt pre g)))

/-- Placeholder pass used as the out-of-range default for indexed access. -/
def noPass : SummaryPass := ⟨"", "", ""⟩

/-! ## Output writer: filename sanitization

`generate_filename` in `reddit_gpt_summarizer/utils/utils.py` is
`re.sub(r"[^\w\s]", "", title)`, then `.replace(" ", "_")`, then a
truncation to 100 characters.  Word and whitespace characters are
modelled over the ASCII range the claims exercise. -/

/-- A regex `\w` character: alphanumeric or underscore. -/
def isWordChar (c : Char) : Bool :=
  c.isAlphanum || c = '_'

/-- A regex `\s` character: the ASCII whitespace characters
space, tab, newline, carriage return, vertical tab, form feed. -/
def isPySpace (c : Char) : Bool :=
  c = ' ' || c = '\t' || c = '\n' || c = '\r' || c = '\x0b' || c = '\x0c'

/-- Function `generate_filename` from `utils/utils.py`: drop every character that
is neither a `\w` character nor a `\s` character, replace each `' '`
character with `'_'`, and keep only the first 100 characters when the
result is longer than 100. -/
def generate_filename (title : String) : String :=
  let f1 := String.mk (title.data.filter (fun c => isWordChar c || isPySpace c))
  let f2 := String.mk (f1.data.map (fun c => if c = ' ' then '_' else c))
  if f2.length > 100 then String.mk (f2.data.take 100) else f2

/-- The filename `save_output` writes to (the timestamp string `ts` is
`datetime.now().strftime("%Y%m%d%H%M%S")`, supplied by the clock):
`f"{generate_filename(title)}_{get_timestamp()}.txt"`. -/
def output_filename (title ts : String) : String :=
  generate_filename title ++ "_" ++ ts ++ ".txt"

/-- Collapse runs of `'_'` characters to a single `'_'`. -/
def dedupUnderscore : List Char → List Char
  | [] => []
  | [c] => [c]
  | c :: c2 :: rest =>
      if c = '_' ∧ c2 = '_' then dedupUnderscore (c2 :: rest)
      else c :: dedupUnderscore (c2 :: rest)

/-- The sanitization the spec describes, written from its words: strip
all non-alphanumeric/non-whitespace characters, replace every
whitespace run with a single underscore, truncate to at most 100
characters. -/
def specSanitize (title : String) : String :=
  let kept := title.data.filter (fun c => c.isAlphanum || isPySpace c)
  let underscored := dedupUnderscore (kept.map (fun c => if isPySpace c then '_' else c))
  String.mk (underscored.take 100)

/-- The amended sanitization, written as a single pass: keep word
characters unchanged, turn each space character into an underscore,
keep other whitespace characters unchanged, drop everything else, and
keep only the first 100 characters. -/
def amendedSanitize (title : String) : String :=
  String.mk ((title.data.foldr
    (fun c acc =>
      if isWordChar c then c :: acc
      else if c = ' ' then '_' :: acc
      else if isPySpace c then c :: acc
      else acc) []).take 100)

/-- Concatenation of a list of strings, in order. -/
def joinAll : List String → String
  | [] => ""
  | s :: rest => s ++ joinAll rest

/-! ## Helper lemmas -/

theorem joinAll_append (l1 l2 : List String) :
    joinAll (l1 ++ l2) = joinAll l1 ++ joinAll l2 := by
  induction l1 with
  | nil => simp [joinAll, String.empty_append]
  | cons s rest ih => simp [joinAll, ih, String.append_assoc]

theorem genLoop_passes (tokLen : String → Nat) (provider : String → Int → String)
    (title : String) :
    ∀ (gs : List String) (pre out : String) (i : Nat) (acc : List SummaryPass),
      (genLoop tokLen provider title gs pre out i acc).2 =
        acc ++ tracePasses tokLen provider title gs pre := by
  intro gs
  induction gs with
  | nil => intro pre out i acc; simp [genLoop, tracePasses]
  | cons g rest ih => intro pre out i acc; simp [genLoop, tracePasses, ih]

theorem tracePasses_length (tokLen : String → Nat) (provider : String → Int → String)
    (title : String) :
    ∀ (gs : List String) (pre : String),
      (tracePasses tokLen provider title gs pre).length = gs.length := by
  intro gs
  induction gs with
  | nil => intro pre; simp [tracePasses]
  | cons g rest ih => intro pre; simp [tracePasses, ih]

/-! ## Claim theorems -/

/-- C1 (corrected): for the empty chunk list, `generate_summary` does
not return a transcript at all: `groups.insert(0, groups[0])` raises
`IndexError` before any pass runs, so the call fails — and in
particular never invokes the completion provider (the result is the
same for every provider). -/
theorem c1_empty_groups_raises (tokLen : String → Nat)
    (provider : String → Int → String) (maxN : Nat) (title selftext : String) :
    generate_summary tokLen provider maxN title selftext [] =
      .error SummErr.indexError := rfl

/-- C1 counterexample: at a concrete input with zero chunks the driver
returns the `IndexError` failure, not the header-only transcript the
claim promises. -/
theorem c1_empty_groups_counterexample :
    generate_summary (fun s => s.length) (fun _ _ => "R") 1 "T" "" [] =
      .error SummErr.indexError ∧
    (Except.error SummErr.indexError : Except SummErr SummaryResult) ≠
      .ok ⟨"START\n\n" ++ INSTRUCTION_TEXT ++ "\n\n", [], []⟩ :=
  ⟨rfl, fun h => Except.noConfusion h⟩

/-- C3 (corrected): with the first chunk duplicated at INIT, a call with
pass cap `maxN` on a chunk list of length `M ≥ 1` performs exactly
`min(maxN, M + 1)` provider invocations, one per executed pass. -/
theorem c3_pass_count_min (tokLen : String → Nat) (provider : String → Int → String)
    (maxN : Nat) (title selftext g0 : String) (gs : List String) :
    (generate_summary tokLen provider maxN title selftext (g0 :: gs)).map
        (fun r => r.passes.length) = .ok (min maxN ((g0 :: gs).length + 1)) := by
  simp only [generate_summary, Except.map]
  rw [genLoop_passes]
  simp [tracePasses_length, List.length_take]

/-- C3 counterexample: with `maxN = 2` and a single chunk (`M = 1`) the
driver executes 2 passes, not `min(2, 1) = 1`, because the duplicated
first chunk is itself summarized. -/
theorem c3_pass_count_counterexample :
    (generate_summary (fun s => s.length) (fun _ _ => "R") 2 "T" "S" ["a"]).map
        (fun r => r.passes.length) = .ok 2 ∧
    min 2 1 = 1 ∧ (2 : Nat) ≠ 1 := by
  refine ⟨?_, rfl, by decide⟩
  simp only [generate_summary, Except.map]
  rw [genLoop_passes]
  simp [tracePasses_length]

/-- C4 (corrected): `complete_chunk` performs no guard on the remaining
budget: it always invokes the provider with
`MAX_TOKENS - count_tokens(prompt)` as the budget — even when that
budget is ≤ 0 — and never fails with `PromptTooLargeError`. -/
theorem c4_always_invokes (tokLen : String → Nat)
    (provider : String → Int → String) (prompt : String) :
    complete_chunk tokLen provider prompt =
      .ok (provider prompt (MAX_TOKENS - (tokLen prompt : Int))) ∧
    complete_chunk tokLen provider prompt ≠ .error PromptErr.promptTooLarge := by
  refine ⟨rfl, ?_⟩
  intro h
  simp [complete_chunk] at h

/-- C4 counterexample: a prompt counted at 5000 tokens leaves a budget
of `4000 - 5000 ≤ 0`, yet `complete_chunk` still invokes the provider
(which here witnesses the non-positive budget it receives) and returns
its text instead of failing with `PromptTooLargeError`. -/
theorem c4_no_guard_counterexample :
    MAX_TOKENS - ((5000 : Nat) : Int) ≤ 0 ∧
    complete_chunk (fun _ => 5000) (fun _ b => if b ≤ 0 then "CALLED" else "SKIPPED")
        "p" = .ok "CALLED" ∧
    complete_chunk (fun _ => 5000) (fun _ b => if b ≤ 0 then "CALLED" else "SKIPPED")
        "p" ≠ .error PromptErr.promptTooLarge := by
  refine ⟨by decide, by norm_num [complete_chunk, completeChunkVal, MAX_TOKENS], ?_⟩
  intro h
  simp [complete_chunk] at h

/-- C10 (confirmed): for every non-empty chunk list the caller-visible
`groups` list is mutated in place before any pass runs: after the call
it is the original list with its first chunk duplicated at index 0, one
element longer, and in particular not equal to the original list. -/
theorem c10_groups_mutated (tokLen : String → Nat)
    (provider : String → Int → String) (maxN : Nat)
    (title selftext g0 : String) (gs : List String) :
    (generate_summary tokLen provider maxN title selftext (g0 :: gs)).map
        SummaryResult.groupsAfter = .ok (g0 :: g0 :: gs) ∧
    (g0 :: g0 :: gs).length = (g0 :: gs).length + 1 ∧
    g0 :: g0 :: gs ≠ g0 :: gs := by
  refine ⟨by simp [generate_summary, Except.map], by simp, ?_⟩
  intro h
  have hlen := congrArg List.length h
  simp at hlen

theorem concatAux_nil (tokLen : String → Nat) (results : List String)
    (result : String) :
    concatBodiesAux tokLen [] results result =
      if result ≠ "" then results ++ [result] else results := rfl

theorem concatAux_cons_skip (tokLen : String → Nat) (bt : String × String)
    (rest : List (String × String)) (results : List String) (result : String)
    (hb : bt.2 = "") :
    concatBodiesAux tokLen (bt :: rest) results result =
      concatBodiesAux tokLen rest results result := by
  simp [concatBodiesAux, hb]

theorem concatAux_cons_close (tokLen : String → Nat) (bt : String × String)
    (rest : List (String × String)) (results : List String) (result : String)
    (hb : bt.2 ≠ "")
    (hgt : tokLen (result ++ normalizeNewlines bt.2 ++ "\n") > MAX_CHUNK_SIZE) :
    concatBodiesAux tokLen (bt :: rest) results result =
      concatBodiesAux tokLen rest
        (results ++ [result ++ normalizeNewlines bt.2 ++ "\n"]) "" := by
  simp only [concatBodiesAux]
  rw [if_pos hb, if_pos hgt]

theorem concatAux_cons_grow (tokLen : String → Nat) (bt : String × String)
    (rest : List (String × String)) (results : List String) (result : String)
    (hb : bt.2 ≠ "")
    (hle : ¬ tokLen (result ++ normalizeNewlines bt.2 ++ "\n") > MAX_CHUNK_SIZE) :
    concatBodiesAux tokLen (bt :: rest) results result =
      concatBodiesAux tokLen rest results
        (result ++ normalizeNewlines bt.2 ++ "\n") := by
  simp only [concatBodiesAux]
  rw [if_pos hb, if_neg hle]

theorem concatBodiesAux_join (tokLen : String → Nat) :
    ∀ (contents : List (String × String)) (results : List String) (result : String),
      joinAll (concatBodiesAux tokLen contents results result) =
        joinAll results ++ result ++
          joinAll ((contents.filter (fun bt => bt.2 ≠ "")).map
            (fun bt => normalizeNewlines bt.2 ++ "\n")) := by
  intro contents
  induction contents with
  | nil =>
      intro results result
      by_cases h : result = ""
      · simp [concatAux_nil, h, joinAll, String.append_empty]
      · simp [concatAux_nil, h, joinAll, joinAll_append, String.append_empty]
  | cons bt rest ih =>
      intro results result
      by_cases hb : bt.2 = ""
      · rw [concatAux_cons_skip _ _ _ _ _ hb, ih]
        simp [hb]
      · by_cases hlen : tokLen (result ++ normalizeNewlines bt.2 ++ "\n") > MAX_CHUNK_SIZE
        · rw [concatAux_cons_close _ _ _ _ _ hb hlen, ih, joinAll_append]
          simp [joinAll, hb, String.append_assoc, String.append_empty]
        · rw [concatAux_cons_grow _ _ _ _ _ hb hlen, ih]
          simp [joinAll, hb, String.append_assoc]

/-- C5 (confirmed): for every record list and every token counter, the
concatenation of all chunks the chunker produces equals the in-order
concatenation of all non-empty input bodies, each newline-normalized
and followed by the single inserted trailing-newline separator — no
body is dropped, duplicated or reordered. -/
theorem c5_chunks_preserve_bodies (tokLen : String → Nat)
    (contents : List (String × String)) :
    joinAll (concatenate_bodies tokLen contents) =
      joinAll ((contents.filter (fun bt => bt.2 ≠ "")).map
        (fun bt => normalizeNewlines bt.2 ++ "\n")) := by
  have h := concatBodiesAux_join tokLen contents [] ""
  simpa [concatenate_bodies, joinAll, String.empty_append] using h

/-! ## Concrete chunker scenario (claim C2)

The token counter is instantiated with the character count, a
deterministic monotone counter under which the three sample bodies have
exactly the token counts 10, 2600 and 5 the scenario stipulates. -/

/-- Character-count token counter used for the concrete scenarios. -/
def lenTok (s : String) : Nat := s.length

/-- A body of `n` letters (no newlines), counted at `n` tokens by `lenTok`. -/
def repA (n : Nat) : String := String.mk (List.replicate n 'a')

/-- The scenario input: three records with bodies of 10, 2600 and 5 tokens. -/
def c2contents : List (String × String) :=
  [("0", repA 10), ("1", repA 2600), ("2", repA 5)]

theorem collapseNL_no_newline : ∀ (l : List Char), (∀ c ∈ l, c ≠ '\n') →
    collapseNL l = l := by
  intro l
  induction l with
  | nil => intro _; rfl
  | cons c rest ih =>
      intro h
      cases rest with
      | nil => rfl
      | cons c2 rest2 =>
          simp only [collapseNL]
          rw [if_neg (fun hcc => h c (by simp) hcc.1)]
          rw [ih (fun x hx => h x (List.mem_cons_of_mem _ hx))]

theorem repA_norm (n : Nat) : normalizeNewlines (repA n) = repA n := by
  unfold normalizeNewlines repA
  rw [collapseNL_no_newline]
  intro c hc
  have hc2 := List.eq_of_mem_replicate hc
  simp [hc2]

theorem repA_length (n : Nat) : (repA n).length = n := by
  simp [repA, String.length_mk, List.length_replicate]

theorem repA_ne_empty (n : Nat) (h : n ≠ 0) : repA n ≠ "" := by
  intro he
  have hlen := congrArg String.length he
  rw [repA_length] at hlen
  exact h (by simpa using hlen)

/-- C2 (code_bug): on the three bodies of 10, 2600 and 5 tokens with the
2500-token budget, the chunker returns TWO chunks — the first contains
bodies 1 AND 2 together (the accumulator is only closed after the append
that exceeded the budget), the second contains body 3.  This contradicts
the docstring of `concatenate_bodies` ("strings that are
<MAX_CHUNK_SIZE tokens long": the first chunk has 2612 tokens) and the
claimed 3-chunk output where the oversized body sits alone. -/
theorem c2_chunker_two_chunks :
    lenTok (repA 10) = 10 ∧ lenTok (repA 2600) = 2600 ∧ lenTok (repA 5) = 5 ∧
    concatenate_bodies lenTok c2contents =
      [repA 10 ++ "\n" ++ repA 2600 ++ "\n", repA 5 ++ "\n"] ∧
    (concatenate_bodies lenTok c2contents).length = 2 ∧
    lenTok (repA 10 ++ "\n" ++ repA 2600 ++ "\n") = 2612 := by
  have hlenNL : ("\n" : String).length = 1 := rfl
  have hle1 : ¬ lenTok ("" ++ normalizeNewlines (repA 10) ++ "\n") > MAX_CHUNK_SIZE := by
    simp only [lenTok, repA_norm, String.length_append, String.length_empty,
      repA_length, hlenNL, MAX_CHUNK_SIZE, gt_iff_lt]
    omega
  have hgt2 : lenTok (("" ++ normalizeNewlines (repA 10) ++ "\n") ++
      normalizeNewlines (repA 2600) ++ "\n") > MAX_CHUNK_SIZE := by
    simp only [lenTok, repA_norm, String.length_append, String.length_empty,
      repA_length, hlenNL, MAX_CHUNK_SIZE, gt_iff_lt]
    omega
  have hle3 : ¬ lenTok ("" ++ normalizeNewlines (repA 5) ++ "\n") > MAX_CHUNK_SIZE := by
    simp only [lenTok, repA_norm, String.length_append, String.length_empty,
      repA_length, hlenNL, MAX_CHUNK_SIZE, gt_iff_lt]
    omega
  have hfin : ("" ++ normalizeNewlines (repA 5) ++ "\n") ≠ "" := by
    intro h
    have hl := congrArg String.length h
    simp only [repA_norm, String.length_append, String.length_empty, repA_length,
      hlenNL] at hl
    omega
  have step : concatenate_bodies lenTok c2contents =
      [("" ++ normalizeNewlines (repA 10) ++ "\n") ++
         normalizeNewlines (repA 2600) ++ "\n",
       "" ++ normalizeNewlines (repA 5) ++ "\n"] := by
    unfold concatenate_bodies c2contents
    rw [concatAux_cons_grow lenTok _ _ _ _ (repA_ne_empty 10 (by decide)) hle1,
        concatAux_cons_close lenTok _ _ _ _ (repA_ne_empty 2600 (by decide)) hgt2,
        concatAux_cons_grow lenTok _ _ _ _ (repA_ne_empty 5 (by decide)) hle3,
        concatAux_nil, if_pos hfin]
    simp
  refine ⟨by simp [lenTok, repA_length], by simp [lenTok, repA_length],
    by simp [lenTok, repA_length], ?_, ?_, ?_⟩
  · rw [step]
    simp [repA_norm, String.empty_append]
  · rw [step]
    rfl
  · simp only [lenTok, String.length_append, repA_length, hlenNL]

/-! ## Output writer theorems (claim C6) -/

theorem amended_fold_eq (l : List Char) :
    (l.foldr (fun c acc =>
      if isWordChar c then c :: acc
      else if c = ' ' then '_' :: acc
      else if isPySpace c then c :: acc
      else acc) []) =
    (l.filter (fun c => isWordChar c || isPySpace c)).map
      (fun c => if c = ' ' then '_' else c) := by
  induction l with
  | nil => rfl
  | cons c rest ih =>
      by_cases hw : isWordChar c
      · have hcs : ¬ c = ' ' := by
          intro h
          subst h
          exact absurd hw (by decide)
        simp [hw, hcs, ih, List.filter_cons]
      · by_cases hsp : c = ' '
        · subst hsp
          have hps : isPySpace ' ' = true := by decide
          simp [hw, ih, List.filter_cons, hps]
        · by_cases hps : isPySpace c
          · simp [hw, hsp, hps, ih, List.filter_cons]
          · simp [hw, hsp, hps, ih, List.filter_cons]

theorem mk_trunc (l : List Char) :
    (if (String.mk l).length > 100 then String.mk ((String.mk l).data.take 100)
     else String.mk l) = String.mk (l.take 100) := by
  by_cases h : (String.mk l).length > 100
  · rw [if_pos h]
  · rw [if_neg h]
    rw [String.length_mk] at h
    rw [List.take_of_length_le (by omega)]

theorem generate_filename_eq (title : String) :
    generate_filename title =
      String.mk (((title.data.filter (fun c => isWordChar c || isPySpace c)).map
        (fun c => if c = ' ' then '_' else c)).take 100) := by
  unfold generate_filename
  exact mk_trunc _

/-- C6 (corrected): what the code actually does — keep only word
characters (alphanumeric or underscore) and whitespace, replace each
single space character (only `' '`, not whitespace runs, not tabs or
newlines) by one underscore, truncate to at most 100 characters; the
saved filename is this base name, an underscore, the 14-digit
second-resolution timestamp, and `.txt`. -/
theorem c6_sanitize_amended (title ts : String) :
    generate_filename title = amendedSanitize title ∧
    (generate_filename title).length ≤ 100 ∧
    output_filename title ts = amendedSanitize title ++ "_" ++ ts ++ ".txt" := by
  have hmain : generate_filename title = amendedSanitize title := by
    rw [generate_filename_eq]
    unfold amendedSanitize
    rw [amended_fold_eq]
  refine ⟨hmain, ?_, ?_⟩
  · rw [generate_filename_eq, String.length_mk]
    exact List.length_take_le _ _
  · unfold output_filename
    rw [hmain]

/-- C6 counterexample: on the title `"a  b"` (two spaces) the code
yields `"a__b"` — each space becomes its own underscore — while the
claimed run-collapsing sanitization yields `"a_b"`. -/
theorem c6_sanitize_counterexample :
    generate_filename "a  b" = "a__b" ∧ specSanitize "a  b" = "a_b" ∧
    generate_filename "a  b" ≠ specSanitize "a  b" := by decide

/-! ## Metadata extractor theorems (claim C7) -/

theorem except_bind_ok {ε α β : Type} (a : α) (f : α → Except ε β) :
    ((Except.ok a : Except ε α) >>= f) = f a := rfl

/-- C7 (confirmed): whenever the thread-root navigation reaches the
first-child data dict and that dict lacks `title` or lacks `selftext`,
the extractor fails with the missing-field `ValueError` (the
`MissingFieldError` of the spec) — it never returns a value for such a
payload. -/
theorem c7_missing_field_error (data : JsonVal) (ms : JsonMembers)
    (hnav : navChild data = .ok (.obj ms))
    (hmiss : memLookup ms "title" = none ∨ memLookup ms "selftext" = none) :
    get_metadata_from_reddit_json data =
        .error (.missingField "Title not found in child data") ∨
    get_metadata_from_reddit_json data =
        .error (.missingField "Selftext not found in child data") := by
  by_cases ht : memLookup ms "title" = none
  · left
    simp [get_metadata_from_reddit_json, hnav, pyContains, ht, except_bind_ok]
  · rcases hmiss with hts | hs
    · exact absurd hts ht
    · right
      rcases hx : memLookup ms "title" with _ | v
      · exact absurd hx ht
      · simp [get_metadata_from_reddit_json, hnav, pyContains, hx, hs,
          except_bind_ok]

/-- The thread-root shaped payload whose first-child data dict is empty,
used to witness C7. -/
def c7data : JsonVal :=
  .arr (.cons (.obj (.cons "data" (.obj (.cons "children"
    (.arr (.cons (.obj (.cons "data" (.obj .nil) .nil)) .nil)) .nil)) .nil)) .nil)

/-- C7 witness: on the concrete payload with an empty first-child data
dict, the extractor fails with a missing-field error. -/
theorem c7_missing_field_error_witness :
    get_metadata_from_reddit_json c7data =
        .error (.missingField "Title not found in child data") ∨
    get_metadata_from_reddit_json c7data =
        .error (.missingField "Selftext not found in child data") :=
  c7_missing_field_error c7data .nil rfl (Or.inl rfl)

/-! ## Flattener theorems (claim C8) -/

mutual

theorem gbc_length : ∀ (v : JsonVal) (path : List String),
    (get_body_contents v path).length = countBodyNodes v
  | .str _, _ => rfl
  | .num _, _ => rfl
  | .bool _, _ => rfl
  | .null, _ => rfl
  | .obj ms, path => by
      cases h : memLookup ms "body" with
      | none =>
          simp [get_body_contents, countBodyNodes, h, gbcMembers_length ms path]
      | some v =>
          simp [get_body_contents, countBodyNodes, h, gbcMembers_length ms path]
          omega
  | .arr xs, path => gbcArr_length xs 0 path

theorem gbcMembers_length : ∀ (ms : JsonMembers) (path : List String),
    (gbcMembers ms path).length = countBodyMembers ms
  | .nil, _ => rfl
  | .cons k v rest, path => by
      simp only [gbcMembers, countBodyMembers, List.length_append,
        gbc_length v (path ++ [k]), gbcMembers_length rest path]

theorem gbcArr_length : ∀ (xs : JsonList) (i : Nat) (path : List String),
    (gbcArr xs i path).length = countBodyArr xs
  | .nil, _, _ => rfl
  | .cons v rest, i, path => by
      simp only [gbcArr, countBodyArr, List.length_append,
        gbc_length v (path ++ [toString i]), gbcArr_length rest (i + 1) path]

end

/-- C8 (confirmed): the flattener is a pure function — running it twice
on the same payload yields identical record lists — and it emits exactly
one record per body-bearing node of the payload, for every starting
path.  The pre-order shape (body record before recursing into members,
members in insertion order, array elements in index order) is the
definition `get_body_contents` itself. -/
theorem c8_flatten_deterministic (v : JsonVal) (path : List String) :
    get_body_contents v path = get_body_contents v path ∧
    (get_body_contents v path).length = countBodyNodes v :=
  ⟨rfl, gbc_length v path⟩

/-! ## Rolling-prefix theorems (claim C9) -/

theorem tracePasses_chain (tokLen : String → Nat) (provider : String → Int → String)
    (title : String) :
    ∀ (gs : List String) (pre : String) (j : Nat),
      j + 1 < (tracePasses tokLen provider title gs pre).length →
      ((tracePasses tokLen provider title gs pre).getD (j + 1) noPass).preUsed =
        nextPre title
          (((tracePasses tokLen provider title gs pre).getD j noPass).summary) := by
  intro gs
  induction gs with
  | nil => intro pre j h; simp [tracePasses] at h
  | cons g rest ih =>
      intro pre j h
      cases j with
      | zero =>
          cases rest with
          | nil => simp [tracePasses] at h
          | cons g2 rest2 => simp [tracePasses, List.getD_cons_succ,
              List.getD_cons_zero]
      | succ k =>
          have h2 : k + 1 <
              (tracePasses tokLen provider title rest
                (nextPre title (completeChunkVal tokLen provider
                  (mkPrompt pre g)))).length := by
            simp [tracePasses] at h
            omega
          have hk := ih (nextPre title (completeChunkVal tokLen provider
            (mkPrompt pre g))) k h2
          simpa [tracePasses, List.getD_cons_succ] using hk

/-- C9 (confirmed): in every successful run the rolling prefix a pass
starts from is `title + previous completion + end marker`: for every
executed pass `i+1`, its recorded starting prefix equals
`nextPre title s` where `s` is the completion of pass `i` — earlier
prompts, completions and the selftext do not enter it. -/
theorem c9_prefix_recurrence (tokLen : String → Nat)
    (provider : String → Int → String) (maxN : Nat)
    (title selftext : String) (groups : List String) (r : SummaryResult)
    (hr : generate_summary tokLen provider maxN title selftext groups = .ok r)
    (i : Nat) (h : i + 1 < r.passes.length) :
    (r.passes.getD (i + 1) noPass).preUsed =
      nextPre title ((r.passes.getD i noPass).summary) := by
  cases groups with
  | nil => simp [generate_summary] at hr
  | cons g0 gs =>
      simp only [generate_summary, Except.ok.injEq] at hr
      subst hr
      simp only [genLoop_passes, List.nil_append] at h ⊢
      exact tracePasses_chain tokLen provider title _ _ i h

/-- A concrete two-pass run used to witness C9. -/
def c9res : SummaryResult :=
  ((generate_summary lenTok (fun _ _ => "R") 2 "T" "S" ["a", "b"]).toOption).getD
    ⟨"", [], []⟩

/-- C9 witness: in the concrete two-pass run, the prefix recorded for
pass 1 is `nextPre` of the pass-0 completion. -/
theorem c9_prefix_recurrence_witness :
    (c9res.passes.getD 1 noPass).preUsed =
      nextPre "T" ((c9res.passes.getD 0 noPass).summary) :=
  c9_prefix_recurrence lenTok (fun _ _ => "R") 2 "T" "S" ["a", "b"] c9res rfl 0
    (by decide)

end ScrapeStrike
